import Mathlib

/-!
TradeSphere order workflow, embedded shallowly from
`backend/controllers/order.controller.js` (createOrder, verifyPayment,
confirmBankTransfer, approvePayment, updateOrderStatus), the role middleware
applied in `backend/routes/order.routes.js` (`isVendor` from
`roleCheck.middleware.js`), the price update of `product.controller.js`
(`updateProduct`), and the Cart model.  Ids are strings (Mongo
`ObjectId.toString()`), quantities are naturals, money and stock are integers.
Request string fields use `""` for absent or empty, which is exactly the JS
falsy test (`!x`, `x || default`) the source applies to them.  Each controller
is a pure function from its inputs and the database to a result
(`Except ApiError _`) and an updated database; every JS `return
ApiResponse.error(...)` path returns the database unchanged.
-/

namespace TradeSphere

structure Product where
  id : String
  vendor : String
  name : String
  price : Int
  stockQuantity : Int
  isActive : Bool
deriving DecidableEq, Repr

structure CartItem where
  productId : String
  quantity : Nat
deriving DecidableEq, Repr

structure Cart where
  user : String
  items : List CartItem
  totalItems : Nat
  totalPrice : Int
deriving DecidableEq, Repr

structure OrderItem where
  product : String
  quantity : Nat
  unitPrice : Int
  totalPrice : Int
deriving DecidableEq, Repr

structure Order where
  id : String
  customer : String
  vendor : String
  items : List OrderItem
  totalAmount : Int
  shippingAddress : String
  phone : String
  paymentMethod : String
  paymentStatus : String
  paymentReference : Option String
  status : String
deriving DecidableEq, Repr

structure Principal where
  id : String
  role : String
deriving DecidableEq, Repr

structure DB where
  products : List Product
  carts : List Cart
  orders : List Order
  nextId : Nat
deriving DecidableEq, Repr

structure ApiError where
  statusCode : Nat
  message : String
deriving DecidableEq, Repr

structure CreateOrderReq where
  shippingAddress : String
  phone : String
  paymentMethod : String
  paymentReference : String
deriving DecidableEq, Repr

def findProduct (db : DB) (pid : String) : Option Product :=
  db.products.find? fun p => p.id = pid

def findCart (db : DB) (uid : String) : Option Cart :=
  db.carts.find? fun c => c.user = uid

def findOrder (db : DB) (oid : String) : Option Order :=
  db.orders.find? fun o => o.id = oid

/-- Modelled from the spec: the Product model file (`models/Product.model.js`)
is not in the repository snapshot.  Spec §3 says Product "Exposes a stock-check
predicate", and §4.1 step 2 fails when "requested quantity exceeds available
stock", so the predicate holds exactly when the requested quantity is at most
the stock on hand. -/
def Product.isInStock (p : Product) (q : Nat) : Bool :=
  (q : Int) ≤ p.stockQuantity

/-- Modelled from the spec: the Product model file is not in the repository
snapshot.  Spec §4.1 step 4 says "decrement the Catalog Store's stock by the
purchased quantity"; applied to every stored product carrying the given id. -/
def reduceStockInDb (db : DB) (pid : String) (q : Nat) : DB :=
  { db with products := db.products.map fun p =>
      if p.id = pid then { p with stockQuantity := p.stockQuantity - (q : Int) } else p }

/-- Validation of one populated cart line item, from `createOrder` lines 33-42:
missing or inactive product is a 404, insufficient stock a 400. -/
def checkItem (db : DB) (it : CartItem) : Except ApiError Product :=
  match findProduct db it.productId with
  | none => .error ⟨404, "Product " ++ it.productId ++ " not available"⟩
  | some p =>
    if !p.isActive then .error ⟨404, "Product " ++ it.productId ++ " not available"⟩
    else if !(p.isInStock it.quantity) then
      .error ⟨400, "Insufficient stock for " ++ p.name⟩
    else .ok p

/-- The order line item pushed into `vendorGroups`, lines 49-55 of the source:
price frozen from the catalog, totalPrice = price * quantity. -/
def mkOrderItem (p : Product) (q : Nat) : OrderItem :=
  { product := p.id, quantity := q, unitPrice := p.price, totalPrice := p.price * (q : Int) }

/-- `vendorGroups[vendorId].push(item)` with JS object key insertion order:
append to an existing key's list, otherwise add the key at the end. -/
def pushGroup (gs : List (String × List OrderItem)) (v : String) (oi : OrderItem) :
    List (String × List OrderItem) :=
  match gs with
  | [] => [(v, [oi])]
  | (k, its) :: rest =>
    if k = v then (k, its ++ [oi]) :: rest
    else (k, its) :: pushGroup rest v oi

/-- The validation-and-grouping loop of `createOrder` (lines 33-58): the first
failing item aborts with its error, otherwise the items are grouped by the
product's vendor in cart order. -/
def buildGroups (db : DB) :
    List CartItem → List (String × List OrderItem) →
    Except ApiError (List (String × List OrderItem))
  | [], acc => .ok acc
  | it :: rest, acc =>
    match checkItem db it with
    | .error e => .error e
    | .ok p => buildGroups db rest (pushGroup acc p.vendor (mkOrderItem p it.quantity))

/-- Payment status seeding, lines 60-68 of the source. -/
def seedPaymentStatus (paymentMethod paymentReference : String) : String :=
  if paymentMethod = "card" ∧ paymentReference ≠ "" then "paid"
  else if paymentMethod = "bank_transfer" then "pending"
  else if paymentMethod = "cash_on_delivery" then "pending"
  else "pending"

def sumTotal (its : List OrderItem) : Int :=
  (its.map fun oi => oi.totalPrice).sum

/-- One `Order.create` call (lines 75-85).  The generated id and the `status`
default `"pending"` are modelled from the spec (the Order model file is not in
the repository snapshot; spec §8 shows freshly created orders with fulfillment
status pending). -/
def mkOrder (caller : Principal) (req : CreateOrderReq) (ps : String)
    (oid : String) (vendorId : String) (its : List OrderItem) : Order :=
  { id := oid
    customer := caller.id
    vendor := vendorId
    items := its
    totalAmount := sumTotal its
    shippingAddress := req.shippingAddress
    phone := req.phone
    paymentMethod := if req.paymentMethod = "" then "cash_on_delivery" else req.paymentMethod
    paymentStatus := ps
    paymentReference := if req.paymentReference = "" then none else some req.paymentReference
    status := "pending" }

/-- The per-order stock reduction loop, lines 88-91 of the source. -/
def reduceStockList (db : DB) (its : List OrderItem) : DB :=
  its.foldl (fun d oi => reduceStockInDb d oi.product oi.quantity) db

/-- The order creation loop over `Object.entries(vendorGroups)`, lines 72-94:
create one order per vendor group, then reduce stock for that group's items. -/
def createVendorOrders (caller : Principal) (req : CreateOrderReq) (ps : String) :
    List (String × List OrderItem) → DB → List Order → List Order × DB
  | [], db, acc => (acc, db)
  | (v, its) :: rest, db, acc =>
    let o := mkOrder caller req ps ("order-" ++ toString db.nextId) v its
    let db1 : DB := { db with orders := db.orders ++ [o], nextId := db.nextId + 1 }
    let db2 := reduceStockList db1 its
    createVendorOrders caller req ps rest db2 (acc ++ [o])

/-- `Cart.findOneAndUpdate({user}, {items: []})`, lines 97-100 of the source:
only the items field is written. -/
def clearCart (db : DB) (uid : String) : DB :=
  { db with carts := db.carts.map fun c => if c.user = uid then { c with items := [] } else c }

/-- `createOrder` (spec name `placeOrder`), lines 10-106 of
`order.controller.js`. -/
def createOrder (caller : Principal) (req : CreateOrderReq) (db : DB) :
    Except ApiError (List Order) × DB :=
  if req.shippingAddress = "" then (.error ⟨400, "Shipping address is required"⟩, db)
  else if req.phone = "" then (.error ⟨400, "Phone number is required"⟩, db)
  else
    match findCart db caller.id with
    | none => (.error ⟨400, "Cart is empty"⟩, db)
    | some cart =>
      if cart.items.isEmpty then (.error ⟨400, "Cart is empty"⟩, db)
      else
        match buildGroups db cart.items [] with
        | .error e => (.error e, db)
        | .ok groups =>
          let ps := seedPaymentStatus req.paymentMethod req.paymentReference
          let res := createVendorOrders caller req ps groups db []
          (.ok res.1, clearCart res.2 caller.id)

/-- Outcome of the Paystack round trip of `verifyPayment`: a parsed response
with its `data.status` field, or a network error (the `paystackReq.on('error')`
path). -/
inductive GatewayOutcome where
  | response (status : String)
  | networkError
deriving DecidableEq, Repr

def paidIfMatches (ref : String) (o : Order) : Order :=
  if o.paymentReference = some ref then { o with paymentStatus := "paid" } else o

/-- `verifyPayment`, lines 111-163 of the source.  The caller is the
authenticated principal; the handler body never reads `req.user`.  On gateway
status `"success"`, `Order.updateMany({paymentReference: reference},
{paymentStatus: 'paid'})` runs; every other outcome leaves the database
untouched. -/
def verifyPayment (caller : Principal) (reference : String) (gw : GatewayOutcome) (db : DB) :
    Except ApiError String × DB :=
  if reference = "" then (.error ⟨400, "Payment reference is required"⟩, db)
  else
    match gw with
    | .networkError => (.error ⟨500, "Payment verification failed"⟩, db)
    | .response st =>
      if st = "success" then
        (.ok "Payment verified successfully",
          { db with orders := db.orders.map (paidIfMatches reference) })
      else (.error ⟨400, "Payment verification failed"⟩, db)

/-- `order.save()` after mutating a fetched document: replace every stored
order carrying the same id. -/
def updateOrder (db : DB) (o' : Order) : DB :=
  { db with orders := db.orders.map fun x => if x.id = o'.id then o' else x }

/-- `confirmBankTransfer`, lines 168-189 of the source. -/
def confirmBankTransfer (caller : Principal) (orderId : String) (transferReference : String)
    (db : DB) : Except ApiError Order × DB :=
  match findOrder db orderId with
  | none => (.error ⟨404, "Order not found"⟩, db)
  | some o =>
    if o.customer ≠ caller.id then (.error ⟨403, "Not authorized"⟩, db)
    else
      let o' := { o with
        paymentReference := if transferReference = "" then none else some transferReference,
        paymentStatus := "pending" }
      (.ok o', updateOrder db o')

/-- `approvePayment`, lines 194-235 of the source. -/
def approvePayment (caller : Principal) (orderId : String) (db : DB) :
    Except ApiError Order × DB :=
  match findOrder db orderId with
  | none => (.error ⟨404, "Order not found"⟩, db)
  | some o =>
    if o.vendor ≠ caller.id ∧ caller.role ≠ "admin" then
      (.error ⟨403, "Not authorized to approve this payment"⟩, db)
    else if o.paymentStatus = "approved" then
      (.error ⟨400, "Payment already approved"⟩, db)
    else
      let o' := { o with paymentStatus := "approved" }
      (.ok o', updateOrder db o')

def validStatuses : List String :=
  ["pending", "processing", "shipped", "delivered", "cancelled"]

/-- `updateOrderStatus`, lines 284-309 of the source. -/
def updateOrderStatus (caller : Principal) (orderId : String) (status : String) (db : DB) :
    Except ApiError Order × DB :=
  if status ∉ validStatuses then (.error ⟨400, "Invalid status"⟩, db)
  else
    match findOrder db orderId with
    | none => (.error ⟨404, "Order not found"⟩, db)
    | some o =>
      if o.vendor ≠ caller.id ∧ caller.role ≠ "admin" then
        (.error ⟨403, "Not authorized"⟩, db)
      else
        let o' := { o with status := status }
        (.ok o', updateOrder db o')

/-- The `isVendor` middleware of `roleCheck.middleware.js`: passes vendors and
admins, rejects everyone else with a 403. -/
def vendorRoleOk (caller : Principal) : Bool :=
  caller.role = "vendor" ∨ caller.role = "admin"

/-- `PUT /orders/:id/approve-payment` as routed: `isVendor` middleware, then
the controller. -/
def approvePaymentRoute (caller : Principal) (orderId : String) (db : DB) :
    Except ApiError Order × DB :=
  if vendorRoleOk caller then approvePayment caller orderId db
  else (.error ⟨403, "Access denied. Vendor role required."⟩, db)

/-- `PUT /orders/:id/status` as routed: `isVendor` middleware, then the
controller. -/
def updateOrderStatusRoute (caller : Principal) (orderId status : String) (db : DB) :
    Except ApiError Order × DB :=
  if vendorRoleOk caller then updateOrderStatus caller orderId status db
  else (.error ⟨403, "Access denied. Vendor role required."⟩, db)

/-- The price write of `updateProduct` in `product.controller.js`: a
`findByIdAndUpdate` touching only the product document. -/
def updateProductPrice (db : DB) (pid : String) (newPrice : Int) : DB :=
  { db with products := db.products.map fun p =>
      if p.id = pid then { p with price := newPrice } else p }

def resolvedVendors (db : DB) (its : List CartItem) : List String :=
  its.filterMap fun it => (findProduct db it.productId).map fun p => p.vendor

/-- A cart line item passes `createOrder` validation: the product resolves, is
active, and has enough stock. -/
def validItemB (db : DB) (it : CartItem) : Bool :=
  match findProduct db it.productId with
  | none => false
  | some p => p.isActive && p.isInStock it.quantity

def stockOf (db : DB) (pid : String) : Option Int :=
  (findProduct db pid).map fun p => p.stockQuantity

def cartQty (its : List CartItem) (pid : String) : Int :=
  ((its.filter fun it => it.productId = pid).map fun it => (it.quantity : Int)).sum

def qtyForOI (its : List OrderItem) (pid : String) : Int :=
  ((its.filter fun oi => oi.product = pid).map fun oi => (oi.quantity : Int)).sum

/-- The order line item a cart item turns into when its product resolves. -/
def resolveItem (db : DB) (it : CartItem) : Option OrderItem :=
  (findProduct db it.productId).map fun p => mkOrderItem p it.quantity

def itemsOfGroups (gs : List (String × List OrderItem)) : List OrderItem :=
  (gs.map Prod.snd).flatten

def keysOfGroups (gs : List (String × List OrderItem)) : List String :=
  gs.map Prod.fst

/-- An order line item filed under vendor key `v` is consistent with the
catalog: its product resolves, belongs to vendor `v`, and its prices are the
frozen catalog price and the product of unit price and quantity. -/
def itemVendorOk (db : DB) (v : String) (oi : OrderItem) : Prop :=
  ∃ p, findProduct db oi.product = some p ∧ p.vendor = v ∧ oi.unitPrice = p.price ∧
    oi.totalPrice = oi.unitPrice * (oi.quantity : Int)

/-- Concrete data for evaluating the controllers, mirroring the end-to-end
scenario of spec §8: two active products of two vendors, one customer cart. -/
def productA : Product :=
  { id := "pA", vendor := "v1", name := "A", price := 1000, stockQuantity := 5,
    isActive := true }

def productB : Product :=
  { id := "pB", vendor := "v2", name := "B", price := 500, stockQuantity := 1,
    isActive := true }

def cartW : Cart :=
  { user := "u1", items := [⟨"pA", 2⟩, ⟨"pB", 1⟩], totalItems := 3, totalPrice := 2500 }

def dbW : DB := { products := [productA, productB], carts := [cartW], orders := [], nextId := 0 }

def callerW : Principal := { id := "u1", role := "customer" }

def reqW : CreateOrderReq :=
  { shippingAddress := "X", phone := "Y", paymentMethod := "cash_on_delivery",
    paymentReference := "" }

def ordersW : List Order :=
  match (createOrder callerW reqW dbW).1 with
  | .ok os => os
  | .error _ => []

def dbW' : DB := (createOrder callerW reqW dbW).2

/-- A cart asking for one unit more of product B than its stock, for the
insufficient-stock path. -/
def cartBad : Cart :=
  { user := "u1", items := [⟨"pB", 2⟩], totalItems := 2, totalPrice := 1000 }

def dbBad : DB :=
  { products := [productA, productB], carts := [cartBad], orders := [], nextId := 0 }

/-- A stored order awaiting payment, for exercising the payment endpoints. -/
def orderW : Order :=
  { id := "o1", customer := "cust1", vendor := "vend1", items := [], totalAmount := 0,
    shippingAddress := "X", phone := "Y", paymentMethod := "cash_on_delivery",
    paymentStatus := "pending", paymentReference := some "ref1", status := "pending" }

def dbO : DB := { products := [], carts := [], orders := [orderW], nextId := 0 }

def vendorW : Principal := { id := "vend1", role := "vendor" }

def otherW : Principal := { id := "mallory", role := "customer" }

/-- A stored order whose payment has already been vendor-approved. -/
def orderC6 : Order :=
  { id := "o1", customer := "cust1", vendor := "vend1", items := [], totalAmount := 0,
    shippingAddress := "X", phone := "Y", paymentMethod := "bank_transfer",
    paymentStatus := "approved", paymentReference := some "ref1", status := "pending" }

def dbC6 : DB := { products := [], carts := [], orders := [orderC6], nextId := 0 }

def custC6 : Principal := { id := "cust1", role := "customer" }

theorem find?_map_pres {α : Type} (p : α → Bool) (f : α → α)
    (hf : ∀ a, p (f a) = p a) :
    ∀ l : List α, (l.map f).find? p = (l.find? p).map f := by
  intro l
  induction l with
  | nil => rfl
  | cons a t ih =>
    simp only [List.map_cons, List.find?_cons, hf a]
    cases h : p a
    · simpa [h] using ih
    · simp [h]

theorem findProduct_id {db : DB} {pid : String} {p : Product}
    (h : findProduct db pid = some p) : p.id = pid := by
  unfold findProduct at h
  simpa using List.find?_some h

theorem findOrder_id {db : DB} {oid : String} {o : Order}
    (h : findOrder db oid = some o) : o.id = oid := by
  unfold findOrder at h
  simpa using List.find?_some h

theorem findCart_user {db : DB} {uid : String} {c : Cart}
    (h : findCart db uid = some c) : c.user = uid := by
  unfold findCart at h
  simpa using List.find?_some h

theorem findOrder_updateOrder {db : DB} {oid : String} {o : Order} (o' : Order)
    (h : findOrder db oid = some o) (hid : o'.id = o.id) :
    findOrder (updateOrder db o') oid = some o' := by
  have hoid : o.id = oid := findOrder_id h
  simp only [findOrder, updateOrder] at h ⊢
  rw [find?_map_pres _ _ ?_, h]
  · have hcond : o.id = o'.id := hid.symm
    simp [hcond]
  · intro a
    by_cases ha : a.id = o'.id <;> simp [ha]

theorem findCart_clearCart {db : DB} {uid : String} {c : Cart}
    (h : findCart db uid = some c) :
    findCart (clearCart db uid) uid = some { c with items := [] } := by
  have huser : c.user = uid := findCart_user h
  simp only [findCart, clearCart] at h ⊢
  rw [find?_map_pres _ _ ?_, h]
  · simp [huser]
  · intro a
    by_cases ha : a.user = uid <;> simp [ha]

theorem stockOf_reduceStockInDb (db : DB) (x : String) (q : Nat) (pid : String) :
    stockOf (reduceStockInDb db x q) pid =
      (stockOf db pid).map fun s => if pid = x then s - (q : Int) else s := by
  simp only [stockOf, findProduct, reduceStockInDb]
  rw [find?_map_pres _ _ ?_]
  · cases h : db.products.find? (fun p => p.id = pid) with
    | none => rfl
    | some p =>
      have hp : p.id = pid := by simpa using List.find?_some h
      by_cases hx : pid = x
      · simp [hp, hx]
      · simp [hp, hx]
  · intro a
    by_cases ha : a.id = x <;> simp [ha]

theorem qtyForOI_cons (oi : OrderItem) (its : List OrderItem) (pid : String) :
    qtyForOI (oi :: its) pid =
      (if oi.product = pid then (oi.quantity : Int) else 0) + qtyForOI its pid := by
  unfold qtyForOI
  by_cases h : oi.product = pid <;> simp [List.filter_cons, h]

theorem qtyForOI_append (a b : List OrderItem) (pid : String) :
    qtyForOI (a ++ b) pid = qtyForOI a pid + qtyForOI b pid := by
  unfold qtyForOI
  simp [List.filter_append]

theorem reduceStockList_orders (its : List OrderItem) :
    ∀ db : DB, (reduceStockList db its).orders = db.orders := by
  induction its with
  | nil => intro db; rfl
  | cons oi its ih => intro db; exact ih _

theorem reduceStockList_carts (its : List OrderItem) :
    ∀ db : DB, (reduceStockList db its).carts = db.carts := by
  induction its with
  | nil => intro db; rfl
  | cons oi its ih => intro db; exact ih _

theorem stockOf_reduceStockList (its : List OrderItem) :
    ∀ (db : DB) (pid : String),
      stockOf (reduceStockList db its) pid = (stockOf db pid).map fun s => s - qtyForOI its pid := by
  induction its with
  | nil =>
    intro db pid
    have h0 : qtyForOI [] pid = 0 := rfl
    have h1 : reduceStockList db [] = db := rfl
    rw [h1, h0]
    cases h : stockOf db pid <;> simp [h]
  | cons oi its ih =>
    intro db pid
    have h1 : reduceStockList db (oi :: its) =
        reduceStockList (reduceStockInDb db oi.product oi.quantity) its := rfl
    rw [h1, ih, stockOf_reduceStockInDb, qtyForOI_cons]
    cases h : stockOf db pid with
    | none => rfl
    | some s =>
      by_cases hx : pid = oi.product
      · subst hx
        simp [sub_sub]
      · have hx' : ¬ oi.product = pid := fun hh => hx hh.symm
        simp [hx, hx']

theorem itemsOfGroups_nil : itemsOfGroups [] = [] := rfl

theorem itemsOfGroups_cons (k : String) (its : List OrderItem)
    (rest : List (String × List OrderItem)) :
    itemsOfGroups ((k, its) :: rest) = its ++ itemsOfGroups rest := rfl

theorem keysOfGroups_cons (k : String) (its : List OrderItem)
    (rest : List (String × List OrderItem)) :
    keysOfGroups ((k, its) :: rest) = k :: keysOfGroups rest := rfl

theorem pushGroup_cons (k : String) (its : List OrderItem)
    (rest : List (String × List OrderItem)) (v : String) (oi : OrderItem) :
    pushGroup ((k, its) :: rest) v oi =
      if k = v then (k, its ++ [oi]) :: rest else (k, its) :: pushGroup rest v oi := rfl

theorem pushGroup_items_perm (v : String) (oi : OrderItem) :
    ∀ gs : List (String × List OrderItem),
      (itemsOfGroups (pushGroup gs v oi)).Perm (itemsOfGroups gs ++ [oi]) := by
  intro gs
  induction gs with
  | nil => simp [pushGroup, itemsOfGroups]
  | cons pr rest ih =>
    obtain ⟨k, its⟩ := pr
    rw [pushGroup_cons]
    by_cases hk : k = v
    · rw [if_pos hk, itemsOfGroups_cons, itemsOfGroups_cons, List.append_assoc,
        List.append_assoc]
      exact List.Perm.append_left its List.perm_append_comm
    · rw [if_neg hk, itemsOfGroups_cons, itemsOfGroups_cons, List.append_assoc]
      exact List.Perm.append_left its ih

theorem pushGroup_keys (v : String) (oi : OrderItem) :
    ∀ gs, keysOfGroups (pushGroup gs v oi) =
      if v ∈ keysOfGroups gs then keysOfGroups gs else keysOfGroups gs ++ [v] := by
  intro gs
  induction gs with
  | nil => simp [pushGroup, keysOfGroups]
  | cons pr rest ih =>
    obtain ⟨k, its⟩ := pr
    rw [pushGroup_cons]
    by_cases hk : k = v
    · subst hk
      simp [keysOfGroups]
    · rw [if_neg hk]
      have e1 : keysOfGroups ((k, its) :: pushGroup rest v oi) =
          k :: keysOfGroups (pushGroup rest v oi) := rfl
      rw [e1, ih, keysOfGroups_cons]
      by_cases hv : v ∈ keysOfGroups rest
      · rw [if_pos hv, if_pos (List.mem_cons_of_mem k hv)]
      · have hv' : v ∉ k :: keysOfGroups rest := by
          intro hmem
          rcases List.mem_cons.mp hmem with h1 | h2
          · exact hk h1.symm
          · exact hv h2
        rw [if_neg hv, if_neg hv']
        rfl

theorem pushGroup_keys_toFinset (v : String) (oi : OrderItem)
    (gs : List (String × List OrderItem)) :
    (keysOfGroups (pushGroup gs v oi)).toFinset = insert v (keysOfGroups gs).toFinset := by
  rw [pushGroup_keys]
  by_cases hv : v ∈ keysOfGroups gs
  · rw [if_pos hv]
    exact (Finset.insert_eq_self.mpr (List.mem_toFinset.mpr hv)).symm
  · rw [if_neg hv, List.toFinset_append]
    simp [Finset.insert_eq, Finset.union_comm]

theorem pushGroup_keys_nodup (v : String) (oi : OrderItem)
    (gs : List (String × List OrderItem)) (h : (keysOfGroups gs).Nodup) :
    (keysOfGroups (pushGroup gs v oi)).Nodup := by
  rw [pushGroup_keys]
  by_cases hv : v ∈ keysOfGroups gs
  · rwa [if_pos hv]
  · rw [if_neg hv]
    have hperm : (keysOfGroups gs ++ [v]).Perm (v :: keysOfGroups gs) :=
      List.perm_append_comm
    rw [hperm.nodup_iff]
    exact List.nodup_cons.mpr ⟨hv, h⟩

theorem pushGroup_forall (R : String → OrderItem → Prop) (v : String) (oi : OrderItem) :
    ∀ gs, (∀ pr ∈ gs, ∀ x ∈ pr.2, R pr.1 x) → R v oi →
      ∀ pr ∈ pushGroup gs v oi, ∀ x ∈ pr.2, R pr.1 x := by
  intro gs
  induction gs with
  | nil =>
    intro _ hoi pr hpr x hx
    simp only [pushGroup, List.mem_singleton] at hpr
    subst hpr
    simp only [List.mem_singleton] at hx
    subst hx
    exact hoi
  | cons hd rest ih =>
    obtain ⟨k, its⟩ := hd
    intro hgs hoi pr hpr x hx
    rw [pushGroup_cons] at hpr
    by_cases hk : k = v
    · rw [if_pos hk] at hpr
      rcases List.mem_cons.mp hpr with h1 | h2
      · subst h1
        rcases List.mem_append.mp hx with hx1 | hx2
        · exact hgs (k, its) (List.mem_cons_self _ _) x hx1
        · simp only [List.mem_singleton] at hx2
          subst hx2
          subst hk
          exact hoi
      · exact hgs pr (List.mem_cons_of_mem _ h2) x hx
    · rw [if_neg hk] at hpr
      rcases List.mem_cons.mp hpr with h1 | h2
      · subst h1
        exact hgs (k, its) (List.mem_cons_self _ _) x hx
      · exact ih (fun pr' hpr' => hgs pr' (List.mem_cons_of_mem _ hpr')) hoi pr h2 x hx

theorem checkItem_ok_val {db : DB} {it : CartItem} {p : Product}
    (h : checkItem db it = .ok p) :
    findProduct db it.productId = some p ∧ p.isActive = true ∧
      p.isInStock it.quantity = true := by
  unfold checkItem at h
  cases hfp : findProduct db it.productId with
  | none => rw [hfp] at h; cases h
  | some q =>
    rw [hfp] at h
    by_cases h1 : q.isActive = true
    · by_cases h2 : q.isInStock it.quantity = true
      · simp only [h1, h2, Bool.not_true, Bool.false_eq_true, if_false] at h
        rw [Except.ok.injEq] at h
        subst h
        exact ⟨rfl, h1, h2⟩
      · simp [h1, h2] at h
    · simp [h1] at h

theorem checkItem_ok_of {db : DB} {it : CartItem} {p : Product}
    (hfp : findProduct db it.productId = some p)
    (h1 : p.isActive = true) (h2 : p.isInStock it.quantity = true) :
    checkItem db it = .ok p := by
  unfold checkItem
  rw [hfp]
  simp [h1, h2]

theorem checkItem_error_code {db : DB} {it : CartItem} {e : ApiError}
    (h : checkItem db it = .error e) :
    e.statusCode = 404 ∨ e.statusCode = 400 := by
  unfold checkItem at h
  cases hfp : findProduct db it.productId with
  | none =>
    rw [hfp] at h
    rw [Except.error.injEq] at h
    subst h
    exact Or.inl rfl
  | some q =>
    rw [hfp] at h
    by_cases h1 : q.isActive = true
    · by_cases h2 : q.isInStock it.quantity = true
      · simp [h1, h2] at h
      · simp only [h1, h2, Bool.not_true, Bool.not_false, Bool.false_eq_true, if_false,
          if_true] at h
        rw [Except.error.injEq] at h
        subst h
        exact Or.inr rfl
    · have h1' : q.isActive = false := by
        cases hq : q.isActive
        · rfl
        · exact absurd hq h1
      simp only [h1', Bool.not_false, if_true] at h
      rw [Except.error.injEq] at h
      subst h
      exact Or.inl rfl

theorem validItemB_of_ok {db : DB} {it : CartItem} {p : Product}
    (h : checkItem db it = .ok p) : validItemB db it = true := by
  obtain ⟨hfp, h1, h2⟩ := checkItem_ok_val h
  unfold validItemB
  rw [hfp]
  simp [h1, h2]

theorem checkItem_error_of_invalid {db : DB} {it : CartItem}
    (h : validItemB db it = false) :
    ∃ e, checkItem db it = .error e := by
  unfold validItemB at h
  unfold checkItem
  cases hfp : findProduct db it.productId with
  | none => exact ⟨_, rfl⟩
  | some q =>
    rw [hfp] at h
    have h' : (q.isActive && q.isInStock it.quantity) = false := h
    by_cases h1 : q.isActive = true
    · have h2 : q.isInStock it.quantity = false := by
        cases hq : q.isInStock it.quantity
        · rfl
        · rw [h1, hq] at h'; cases h'
      simp [h1, h2]
    · have h1' : q.isActive = false := by
        cases hq : q.isActive
        · rfl
        · exact absurd hq h1
      simp [h1']

theorem buildGroups_cons (db : DB) (it : CartItem) (rest : List CartItem)
    (acc : List (String × List OrderItem)) :
    buildGroups db (it :: rest) acc =
      match checkItem db it with
      | .error e => .error e
      | .ok p => buildGroups db rest (pushGroup acc p.vendor (mkOrderItem p it.quantity)) := rfl

theorem buildGroups_ok_valid {db : DB} :
    ∀ (items : List CartItem) (acc gs), buildGroups db items acc = .ok gs →
      ∀ it ∈ items, validItemB db it = true := by
  intro items
  induction items with
  | nil => intro acc gs _ it hit; cases hit
  | cons a rest ih =>
    intro acc gs h it hit
    rw [buildGroups_cons] at h
    cases hc : checkItem db a with
    | error e => rw [hc] at h; cases h
    | ok p =>
      rw [hc] at h
      rcases List.mem_cons.mp hit with h1 | h2
      · subst h1
        exact validItemB_of_ok hc
      · exact ih _ gs h it h2

theorem buildGroups_error_of_invalid {db : DB} :
    ∀ (items : List CartItem) (acc),
      (∃ it ∈ items, validItemB db it = false) →
      ∃ e, buildGroups db items acc = .error e ∧ (e.statusCode = 404 ∨ e.statusCode = 400) := by
  intro items
  induction items with
  | nil =>
    intro acc h
    rcases h with ⟨it, hit, _⟩
    cases hit
  | cons a rest ih =>
    intro acc h
    rw [buildGroups_cons]
    cases hc : checkItem db a with
    | error e => exact ⟨e, rfl, checkItem_error_code hc⟩
    | ok p =>
      rcases h with ⟨it, hit, hbad⟩
      rcases List.mem_cons.mp hit with h1 | h2
      · subst h1
        rw [validItemB_of_ok hc] at hbad
        cases hbad
      · exact ih _ ⟨it, h2, hbad⟩

theorem buildGroups_ok_items_perm {db : DB} :
    ∀ (items : List CartItem) (acc gs), buildGroups db items acc = .ok gs →
      (itemsOfGroups gs).Perm (itemsOfGroups acc ++ items.filterMap (resolveItem db)) := by
  intro items
  induction items with
  | nil =>
    intro acc gs h
    cases h
    simp
  | cons a rest ih =>
    intro acc gs h
    rw [buildGroups_cons] at h
    cases hc : checkItem db a with
    | error e => rw [hc] at h; cases h
    | ok p =>
      rw [hc] at h
      have hperm := ih _ gs h
      have hpg := pushGroup_items_perm p.vendor (mkOrderItem p a.quantity) acc
      have hres : resolveItem db a = some (mkOrderItem p a.quantity) := by
        unfold resolveItem
        rw [(checkItem_ok_val hc).1]
        rfl
      have hfin : (itemsOfGroups gs).Perm
          (itemsOfGroups acc ++ (mkOrderItem p a.quantity :: rest.filterMap (resolveItem db))) := by
        refine hperm.trans ?_
        refine (List.Perm.append_right _ hpg).trans ?_
        rw [List.append_assoc, List.singleton_append]
      rw [List.filterMap_cons, hres]
      exact hfin

theorem buildGroups_ok_keys_nodup {db : DB} :
    ∀ (items : List CartItem) (acc gs), buildGroups db items acc = .ok gs →
      (keysOfGroups acc).Nodup → (keysOfGroups gs).Nodup := by
  intro items
  induction items with
  | nil =>
    intro acc gs h hacc
    cases h
    exact hacc
  | cons a rest ih =>
    intro acc gs h hacc
    rw [buildGroups_cons] at h
    cases hc : checkItem db a with
    | error e => rw [hc] at h; cases h
    | ok p =>
      rw [hc] at h
      exact ih _ gs h (pushGroup_keys_nodup _ _ _ hacc)

theorem buildGroups_ok_keys_toFinset {db : DB} :
    ∀ (items : List CartItem) (acc gs), buildGroups db items acc = .ok gs →
      (keysOfGroups gs).toFinset =
        (keysOfGroups acc).toFinset ∪ (resolvedVendors db items).toFinset := by
  intro items
  induction items with
  | nil =>
    intro acc gs h
    cases h
    simp [resolvedVendors]
  | cons a rest ih =>
    intro acc gs h
    rw [buildGroups_cons] at h
    cases hc : checkItem db a with
    | error e => rw [hc] at h; cases h
    | ok p =>
      rw [hc] at h
      have hmain := ih _ gs h
      rw [pushGroup_keys_toFinset] at hmain
      have hres : resolvedVendors db (a :: rest) = p.vendor :: resolvedVendors db rest := by
        unfold resolvedVendors
        rw [List.filterMap_cons, (checkItem_ok_val hc).1]
        rfl
      rw [hres, List.toFinset_cons, hmain, Finset.insert_union, Finset.union_insert]

theorem buildGroups_ok_wf {db : DB} :
    ∀ (items : List CartItem) (acc gs), buildGroups db items acc = .ok gs →
      (∀ pr ∈ acc, ∀ x ∈ pr.2, itemVendorOk db pr.1 x) →
      ∀ pr ∈ gs, ∀ x ∈ pr.2, itemVendorOk db pr.1 x := by
  intro items
  induction items with
  | nil =>
    intro acc gs h hacc
    cases h
    exact hacc
  | cons a rest ih =>
    intro acc gs h hacc
    rw [buildGroups_cons] at h
    cases hc : checkItem db a with
    | error e => rw [hc] at h; cases h
    | ok p =>
      rw [hc] at h
      have hfp := (checkItem_ok_val hc).1
      have hid : p.id = a.productId := findProduct_id hfp
      have hnew : itemVendorOk db p.vendor (mkOrderItem p a.quantity) := by
        refine ⟨p, ?_, rfl, rfl, rfl⟩
        show findProduct db p.id = some p
        rw [hid]
        exact hfp
      exact ih _ gs h (pushGroup_forall (itemVendorOk db) _ _ _ hacc hnew)

theorem cvo_cons_eq (caller : Principal) (req : CreateOrderReq) (ps : String)
    (v : String) (its : List OrderItem) (rest : List (String × List OrderItem))
    (db : DB) (acc : List Order) :
    createVendorOrders caller req ps ((v, its) :: rest) db acc =
      createVendorOrders caller req ps rest
        (reduceStockList
          { db with
            orders := db.orders ++
              [mkOrder caller req ps ("order-" ++ toString db.nextId) v its],
            nextId := db.nextId + 1 } its)
        (acc ++ [mkOrder caller req ps ("order-" ++ toString db.nextId) v its]) := rfl

theorem cvo_mem (caller : Principal) (req : CreateOrderReq) (ps : String) :
    ∀ (groups : List (String × List OrderItem)) (db : DB) (acc : List Order),
      ∀ o ∈ (createVendorOrders caller req ps groups db acc).1,
        o ∈ acc ∨ ∃ pr ∈ groups, o.vendor = pr.1 ∧ o.items = pr.2 ∧
          o.totalAmount = sumTotal pr.2 ∧ o.paymentStatus = ps ∧ o.customer = caller.id := by
  intro groups
  induction groups with
  | nil => intro db acc o ho; exact Or.inl ho
  | cons pr rest ih =>
    obtain ⟨v, its⟩ := pr
    intro db acc o ho
    rw [cvo_cons_eq] at ho
    rcases ih _ _ o ho with h1 | h2
    · rcases List.mem_append.mp h1 with ha | hb
      · exact Or.inl ha
      · simp only [List.mem_singleton] at hb
        subst hb
        exact Or.inr ⟨(v, its), List.mem_cons_self _ _, rfl, rfl, rfl, rfl, rfl⟩
    · rcases h2 with ⟨pr', hpr', hrest⟩
      exact Or.inr ⟨pr', List.mem_cons_of_mem _ hpr', hrest⟩

theorem cvo_vendors (caller : Principal) (req : CreateOrderReq) (ps : String) :
    ∀ (groups : List (String × List OrderItem)) (db : DB) (acc : List Order),
      (createVendorOrders caller req ps groups db acc).1.map (fun o => o.vendor) =
        acc.map (fun o => o.vendor) ++ keysOfGroups groups := by
  intro groups
  induction groups with
  | nil => intro db acc; simp [createVendorOrders, keysOfGroups]
  | cons pr rest ih =>
    obtain ⟨v, its⟩ := pr
    intro db acc
    rw [cvo_cons_eq, ih, keysOfGroups_cons]
    simp [mkOrder]

theorem cvo_items (caller : Principal) (req : CreateOrderReq) (ps : String) :
    ∀ (groups : List (String × List OrderItem)) (db : DB) (acc : List Order),
      ((createVendorOrders caller req ps groups db acc).1.map (fun o => o.items)).flatten =
        (acc.map (fun o => o.items)).flatten ++ itemsOfGroups groups := by
  intro groups
  induction groups with
  | nil => intro db acc; simp [createVendorOrders, itemsOfGroups]
  | cons pr rest ih =>
    obtain ⟨v, its⟩ := pr
    intro db acc
    rw [cvo_cons_eq, ih, itemsOfGroups_cons]
    simp [mkOrder]

theorem cvo_length (caller : Principal) (req : CreateOrderReq) (ps : String) :
    ∀ (groups : List (String × List OrderItem)) (db : DB) (acc : List Order),
      (createVendorOrders caller req ps groups db acc).1.length =
        acc.length + groups.length := by
  intro groups
  induction groups with
  | nil => intro db acc; simp [createVendorOrders]
  | cons pr rest ih =>
    obtain ⟨v, its⟩ := pr
    intro db acc
    rw [cvo_cons_eq, ih]
    simp
    omega

theorem cvo_db_orders (caller : Principal) (req : CreateOrderReq) (ps : String) :
    ∀ (groups : List (String × List OrderItem)) (db : DB) (acc : List Order),
      ∃ new, (createVendorOrders caller req ps groups db acc).2.orders =
        db.orders ++ new := by
  intro groups
  induction groups with
  | nil => intro db acc; exact ⟨[], (List.append_nil _).symm⟩
  | cons pr rest ih =>
    obtain ⟨v, its⟩ := pr
    intro db acc
    rw [cvo_cons_eq]
    obtain ⟨new, hnew⟩ := ih _ (acc ++ [mkOrder caller req ps ("order-" ++ toString db.nextId) v its])
    rw [hnew, reduceStockList_orders]
    exact ⟨[mkOrder caller req ps ("order-" ++ toString db.nextId) v its] ++ new,
      by simp [List.append_assoc]⟩

theorem cvo_db_carts (caller : Principal) (req : CreateOrderReq) (ps : String) :
    ∀ (groups : List (String × List OrderItem)) (db : DB) (acc : List Order),
      (createVendorOrders caller req ps groups db acc).2.carts = db.carts := by
  intro groups
  induction groups with
  | nil => intro db acc; rfl
  | cons pr rest ih =>
    obtain ⟨v, its⟩ := pr
    intro db acc
    rw [cvo_cons_eq, ih, reduceStockList_carts]

theorem cvo_stock (caller : Principal) (req : CreateOrderReq) (ps : String) :
    ∀ (groups : List (String × List OrderItem)) (db : DB) (acc : List Order) (pid : String),
      stockOf (createVendorOrders caller req ps groups db acc).2 pid =
        (stockOf db pid).map fun s => s - qtyForOI (itemsOfGroups groups) pid := by
  intro groups
  induction groups with
  | nil =>
    intro db acc pid
    have h0 : qtyForOI (itemsOfGroups []) pid = 0 := rfl
    have h1 : (createVendorOrders caller req ps [] db acc).2 = db := rfl
    rw [h0, h1]
    cases h : stockOf db pid <;> simp [h]
  | cons pr rest ih =>
    obtain ⟨v, its⟩ := pr
    intro db acc pid
    rw [cvo_cons_eq, ih, stockOf_reduceStockList, itemsOfGroups_cons, qtyForOI_append]
    have hmid : stockOf
        { db with
          orders := db.orders ++
            [mkOrder caller req ps ("order-" ++ toString db.nextId) v its],
          nextId := db.nextId + 1 } pid = stockOf db pid := rfl
    rw [hmid]
    cases h : stockOf db pid with
    | none => rfl
    | some s => simp [sub_sub]

theorem createOrder_ok_inv {caller : Principal} {req : CreateOrderReq} {db : DB}
    {orders : List Order} {db' : DB}
    (hok : createOrder caller req db = (.ok orders, db')) :
    ∃ cart gs, findCart db caller.id = some cart ∧
      buildGroups db cart.items [] = .ok gs ∧
      orders = (createVendorOrders caller req
        (seedPaymentStatus req.paymentMethod req.paymentReference) gs db []).1 ∧
      db' = clearCart (createVendorOrders caller req
        (seedPaymentStatus req.paymentMethod req.paymentReference) gs db []).2 caller.id := by
  unfold createOrder at hok
  split at hok
  · simp at hok
  · split at hok
    · simp at hok
    · split at hok
      · simp at hok
      · rename_i cart hcart
        split at hok
        · simp at hok
        · split at hok
          · simp at hok
          · rename_i gs hbg
            simp only [Prod.mk.injEq, Except.ok.injEq] at hok
            obtain ⟨ho, hdb⟩ := hok
            exact ⟨cart, gs, hcart, hbg, ho.symm, hdb.symm⟩

theorem forall₂_map_paid (ref : String) :
    ∀ l : List Order, List.Forall₂ (fun o o' =>
      (o.paymentReference = some ref → o' = { o with paymentStatus := "paid" }) ∧
      (o.paymentReference ≠ some ref → o' = o)) l (l.map (paidIfMatches ref)) := by
  intro l
  induction l with
  | nil => exact List.Forall₂.nil
  | cons o rest ih =>
    refine List.Forall₂.cons ⟨?_, ?_⟩ ih
    · intro hm
      unfold paidIfMatches
      rw [if_pos hm]
    · intro hm
      unfold paidIfMatches
      rw [if_neg hm]

/-- C10: the `verifyPayment` handler never reads the authenticated principal:
any two callers produce identical results and identical Order Ledger
mutations for the same reference and gateway outcome. -/
theorem verifyPayment_ignores_caller (c1 c2 : Principal) (reference : String)
    (gw : GatewayOutcome) (db : DB) :
    verifyPayment c1 reference gw db = verifyPayment c2 reference gw db := rfl

/-- C8: with a non-empty reference, a gateway response of status `"success"`
makes `verifyPayment` succeed and set `paymentStatus` to `"paid"` on exactly
the orders whose `paymentReference` equals the reference, leaving every other
order untouched; a non-success response yields a 400 and a network error a
500, each leaving the database unchanged. -/
theorem verifyPayment_fanout_and_failure (caller : Principal) (reference : String) (db : DB)
    (href : reference ≠ "") :
    (∃ msg db', verifyPayment caller reference (.response "success") db = (.ok msg, db') ∧
      List.Forall₂ (fun o o' =>
        (o.paymentReference = some reference → o' = { o with paymentStatus := "paid" }) ∧
        (o.paymentReference ≠ some reference → o' = o)) db.orders db'.orders) ∧
    (∀ st, st ≠ "success" →
      verifyPayment caller reference (.response st) db =
        (.error ⟨400, "Payment verification failed"⟩, db)) ∧
    (verifyPayment caller reference .networkError db =
      (.error ⟨500, "Payment verification failed"⟩, db)) := by
  refine ⟨?_, ?_, ?_⟩
  · refine ⟨"Payment verified successfully",
      { db with orders := db.orders.map (paidIfMatches reference) }, ?_, ?_⟩
    · unfold verifyPayment
      rw [if_neg href]
      rfl
    · exact forall₂_map_paid reference db.orders
  · intro st hst
    unfold verifyPayment
    rw [if_neg href]
    simp [hst]
  · unfold verifyPayment
    rw [if_neg href]

theorem verifyPayment_fanout_witness :
    ("ref1" : String) ≠ "" ∧
    ((∃ msg db', verifyPayment custC6 "ref1" (.response "success") dbO = (.ok msg, db') ∧
      List.Forall₂ (fun o o' =>
        (o.paymentReference = some "ref1" → o' = { o with paymentStatus := "paid" }) ∧
        (o.paymentReference ≠ some "ref1" → o' = o)) dbO.orders db'.orders) ∧
    (∀ st, st ≠ "success" →
      verifyPayment custC6 "ref1" (.response st) dbO =
        (.error ⟨400, "Payment verification failed"⟩, dbO)) ∧
    (verifyPayment custC6 "ref1" .networkError dbO =
      (.error ⟨500, "Payment verification failed"⟩, dbO))) :=
  ⟨by decide, verifyPayment_fanout_and_failure custC6 "ref1" dbO (by decide)⟩

/-- C5: on an order whose payment status is anything but `"approved"`, the
order's vendor (or an admin) can approve the payment exactly once: the first
call succeeds and stores `"approved"`, and a repeated call fails with the
400 `AlreadyApprovedError` while the stored status stays `"approved"`. -/
theorem approvePayment_once_then_already (caller : Principal) (orderId : String) (db : DB)
    (o : Order) (hfind : findOrder db orderId = some o)
    (hst : o.paymentStatus ≠ "approved")
    (hauth : (caller.id = o.vendor ∧ caller.role = "vendor") ∨ caller.role = "admin") :
    ∃ o' db₁, approvePaymentRoute caller orderId db = (.ok o', db₁) ∧
      o'.paymentStatus = "approved" ∧
      findOrder db₁ orderId = some o' ∧
      approvePaymentRoute caller orderId db₁ =
        (.error ⟨400, "Payment already approved"⟩, db₁) := by
  have hrole : vendorRoleOk caller = true := by
    unfold vendorRoleOk
    rcases hauth with ⟨_, hr⟩ | hr <;> simp [hr]
  have hnb : ¬(o.vendor ≠ caller.id ∧ caller.role ≠ "admin") := by
    rcases hauth with ⟨hid, _⟩ | hr
    · intro hya
      exact hya.1 hid.symm
    · intro hya
      exact hya.2 hr
  have hfind2 : findOrder (updateOrder db { o with paymentStatus := "approved" }) orderId =
      some { o with paymentStatus := "approved" } :=
    findOrder_updateOrder _ hfind rfl
  refine ⟨{ o with paymentStatus := "approved" },
    updateOrder db { o with paymentStatus := "approved" }, ?_, rfl, hfind2, ?_⟩
  · unfold approvePaymentRoute
    rw [if_pos hrole]
    simp only [approvePayment, hfind]
    rw [if_neg hnb, if_neg hst]
  · unfold approvePaymentRoute
    rw [if_pos hrole]
    simp only [approvePayment, hfind2]
    have hnb' : ¬(({ o with paymentStatus := "approved" } : Order).vendor ≠ caller.id ∧
        caller.role ≠ "admin") := hnb
    rw [if_neg hnb']
    simp

theorem approvePayment_once_witness :
    findOrder dbO "o1" = some orderW ∧
    orderW.paymentStatus ≠ "approved" ∧
    ((vendorW.id = orderW.vendor ∧ vendorW.role = "vendor") ∨ vendorW.role = "admin") ∧
    (∃ o' db₁, approvePaymentRoute vendorW "o1" dbO = (.ok o', db₁) ∧
      o'.paymentStatus = "approved" ∧
      findOrder db₁ "o1" = some o' ∧
      approvePaymentRoute vendorW "o1" db₁ =
        (.error ⟨400, "Payment already approved"⟩, db₁)) :=
  ⟨rfl, by decide, Or.inl ⟨rfl, rfl⟩,
    approvePayment_once_then_already vendorW "o1" dbO orderW rfl (by decide)
      (Or.inl ⟨rfl, rfl⟩)⟩

/-- C7: a principal who is neither the order's vendor nor an admin gets a 403
from both `approvePayment` and `updateOrderStatus` (whether stopped by the
`isVendor` middleware or by the controller's ownership check) with the
database unchanged, and a principal other than the order's customer gets a
403 from `confirmBankTransfer` with the database unchanged. -/
theorem unauthorized_calls_do_not_mutate (c1 c2 : Principal) (orderId s tr : String)
    (db : DB) (o : Order) (hfind : findOrder db orderId = some o)
    (h1 : c1.id ≠ o.vendor) (h2 : c1.role ≠ "admin")
    (h3 : c2.id ≠ o.customer) (hs : s ∈ validStatuses) :
    (∃ m, approvePaymentRoute c1 orderId db = (.error ⟨403, m⟩, db)) ∧
    (∃ m, updateOrderStatusRoute c1 orderId s db = (.error ⟨403, m⟩, db)) ∧
    confirmBankTransfer c2 orderId tr db = (.error ⟨403, "Not authorized"⟩, db) := by
  have hblk : o.vendor ≠ c1.id ∧ c1.role ≠ "admin" := ⟨fun h => h1 h.symm, h2⟩
  refine ⟨?_, ?_, ?_⟩
  · unfold approvePaymentRoute
    by_cases hrole : vendorRoleOk c1 = true
    · rw [if_pos hrole]
      simp only [approvePayment, hfind]
      rw [if_pos hblk]
      exact ⟨_, rfl⟩
    · rw [if_neg hrole]
      exact ⟨_, rfl⟩
  · unfold updateOrderStatusRoute
    by_cases hrole : vendorRoleOk c1 = true
    · rw [if_pos hrole]
      simp only [updateOrderStatus, hfind]
      rw [if_neg (not_not_intro hs), if_pos hblk]
      exact ⟨_, rfl⟩
    · rw [if_neg hrole]
      exact ⟨_, rfl⟩
  · simp only [confirmBankTransfer, hfind]
    rw [if_pos (fun h => h3 h.symm)]

theorem unauthorized_calls_witness :
    findOrder dbO "o1" = some orderW ∧
    otherW.id ≠ orderW.vendor ∧ otherW.role ≠ "admin" ∧ otherW.id ≠ orderW.customer ∧
    "shipped" ∈ validStatuses ∧
    ((∃ m, approvePaymentRoute otherW "o1" dbO = (.error ⟨403, m⟩, dbO)) ∧
     (∃ m, updateOrderStatusRoute otherW "o1" "shipped" dbO = (.error ⟨403, m⟩, dbO)) ∧
     confirmBankTransfer otherW "o1" "t9" dbO = (.error ⟨403, "Not authorized"⟩, dbO)) :=
  ⟨rfl, by decide, by decide, by decide, by decide,
    unauthorized_calls_do_not_mutate otherW otherW "o1" "shipped" "t9" dbO orderW rfl
      (by decide) (by decide) (by decide) (by decide)⟩

/-- C6 counterexample: `"approved"` is not terminal in the code.  On a stored
order with `paymentStatus = "approved"` and `paymentReference = some "ref1"`,
a successful `verifyPayment` for `"ref1"` rewrites the status to `"paid"`,
and `confirmBankTransfer` by the order's customer rewrites it to
`"pending"`. -/
theorem approved_not_terminal :
    ((dbC6.orders.map fun o => o.paymentStatus) = ["approved"]) ∧
    (((verifyPayment custC6 "ref1" (.response "success") dbC6).2.orders.map
        fun o => o.paymentStatus) = ["paid"]) ∧
    (((confirmBankTransfer custC6 "o1" "newref" dbC6).2.orders.map
        fun o => o.paymentStatus) = ["pending"]) :=
  ⟨rfl, rfl, rfl⟩

theorem createOrder_error_inv {caller : Principal} {req : CreateOrderReq} {db : DB}
    {e : ApiError} {db₂ : DB}
    (h : createOrder caller req db = (.error e, db₂)) : db₂ = db := by
  unfold createOrder at h
  split at h
  · exact (congrArg Prod.snd h).symm
  · split at h
    · exact (congrArg Prod.snd h).symm
    · split at h
      · exact (congrArg Prod.snd h).symm
      · split at h
        · exact (congrArg Prod.snd h).symm
        · split at h
          · exact (congrArg Prod.snd h).symm
          · simp at h

/-- C6 amended: `"approved"` is terminal with respect to `approvePayment`,
`updateOrderStatus` and `createOrder` — none of them moves any stored order's
`paymentStatus` away from `"approved"` — but not with respect to
`verifyPayment` (which sets matching orders to `"paid"`) or
`confirmBankTransfer` (which resets the order to `"pending"`), as the
counterexample shows. -/
theorem approved_terminal_for_nonreconciling_ops (caller : Principal)
    (orderId statusArg : String) (req : CreateOrderReq) (db : DB) :
    (∀ o₂ ∈ (approvePaymentRoute caller orderId db).2.orders,
      ∃ o₁ ∈ db.orders, o₂ = o₁ ∨ o₂ = { o₁ with paymentStatus := "approved" }) ∧
    (∀ o₂ ∈ (updateOrderStatusRoute caller orderId statusArg db).2.orders,
      ∃ o₁ ∈ db.orders, o₂.id = o₁.id ∧ o₂.paymentStatus = o₁.paymentStatus) ∧
    (∃ new, ((createOrder caller req db).2).orders = db.orders ++ new) := by
  refine ⟨?_, ?_, ?_⟩
  · intro o₂ ho₂
    unfold approvePaymentRoute at ho₂
    by_cases hrole : vendorRoleOk caller = true
    · rw [if_pos hrole] at ho₂
      cases hfind : findOrder db orderId with
      | none =>
        simp only [approvePayment, hfind] at ho₂
        exact ⟨o₂, ho₂, Or.inl rfl⟩
      | some o =>
        simp only [approvePayment, hfind] at ho₂
        by_cases hb1 : o.vendor ≠ caller.id ∧ caller.role ≠ "admin"
        · rw [if_pos hb1] at ho₂
          exact ⟨o₂, ho₂, Or.inl rfl⟩
        · rw [if_neg hb1] at ho₂
          by_cases hb2 : o.paymentStatus = "approved"
          · rw [if_pos hb2] at ho₂
            exact ⟨o₂, ho₂, Or.inl rfl⟩
          · rw [if_neg hb2] at ho₂
            have ho₂' : o₂ ∈ db.orders.map fun x =>
                if x.id = ({ o with paymentStatus := "approved" } : Order).id then
                  { o with paymentStatus := "approved" } else x := ho₂
            rcases List.mem_map.mp ho₂' with ⟨o₁, ho₁, hfo⟩
            have homem : o ∈ db.orders := by
              unfold findOrder at hfind
              exact List.mem_of_find?_eq_some hfind
            by_cases hid : o₁.id = ({ o with paymentStatus := "approved" } : Order).id
            · rw [if_pos hid] at hfo
              exact ⟨o, homem, Or.inr hfo.symm⟩
            · rw [if_neg hid] at hfo
              exact ⟨o₁, ho₁, Or.inl hfo.symm⟩
    · rw [if_neg hrole] at ho₂
      exact ⟨o₂, ho₂, Or.inl rfl⟩
  · intro o₂ ho₂
    unfold updateOrderStatusRoute at ho₂
    by_cases hrole : vendorRoleOk caller = true
    · rw [if_pos hrole] at ho₂
      unfold updateOrderStatus at ho₂
      by_cases hval : statusArg ∉ validStatuses
      · rw [if_pos hval] at ho₂
        exact ⟨o₂, ho₂, rfl, rfl⟩
      · rw [if_neg hval] at ho₂
        cases hfind : findOrder db orderId with
        | none =>
          rw [hfind] at ho₂
          exact ⟨o₂, ho₂, rfl, rfl⟩
        | some o =>
          simp only [hfind] at ho₂
          by_cases hb1 : o.vendor ≠ caller.id ∧ caller.role ≠ "admin"
          · rw [if_pos hb1] at ho₂
            exact ⟨o₂, ho₂, rfl, rfl⟩
          · rw [if_neg hb1] at ho₂
            have ho₂' : o₂ ∈ db.orders.map fun x =>
                if x.id = ({ o with status := statusArg } : Order).id then
                  { o with status := statusArg } else x := ho₂
            rcases List.mem_map.mp ho₂' with ⟨o₁, ho₁, hfo⟩
            have homem : o ∈ db.orders := by
              unfold findOrder at hfind
              exact List.mem_of_find?_eq_some hfind
            by_cases hid : o₁.id = ({ o with status := statusArg } : Order).id
            · rw [if_pos hid] at hfo
              exact ⟨o, homem, by rw [← hfo], by rw [← hfo]⟩
            · rw [if_neg hid] at hfo
              exact ⟨o₁, ho₁, by rw [← hfo], by rw [← hfo]⟩
    · rw [if_neg hrole] at ho₂
      exact ⟨o₂, ho₂, rfl, rfl⟩
  · rcases hres : createOrder caller req db with ⟨r, db₂⟩
    cases r with
    | error e =>
      exact ⟨[], by rw [createOrder_error_inv hres]; simp⟩
    | ok os =>
      obtain ⟨cart, gs, hcart, hbg, horders, hdb'⟩ := createOrder_ok_inv hres
      obtain ⟨new, hnew⟩ := cvo_db_orders caller req
        (seedPaymentStatus req.paymentMethod req.paymentReference) gs db []
      refine ⟨new, ?_⟩
      rw [hdb']
      exact hnew

theorem qtyForOI_perm {a b : List OrderItem} (h : a.Perm b) (pid : String) :
    qtyForOI a pid = qtyForOI b pid := by
  unfold qtyForOI
  exact ((h.filter _).map _).sum_eq

theorem cartQty_cons (it : CartItem) (rest : List CartItem) (pid : String) :
    cartQty (it :: rest) pid =
      (if it.productId = pid then (it.quantity : Int) else 0) + cartQty rest pid := by
  unfold cartQty
  by_cases h : it.productId = pid <;> simp [List.filter_cons, h]

theorem resolveItem_of_valid {db : DB} {it : CartItem} (h : validItemB db it = true) :
    ∃ p, findProduct db it.productId = some p ∧
      resolveItem db it = some (mkOrderItem p it.quantity) := by
  unfold validItemB at h
  cases hfp : findProduct db it.productId with
  | none => rw [hfp] at h; cases h
  | some p =>
    refine ⟨p, rfl, ?_⟩
    unfold resolveItem
    rw [hfp]
    rfl

theorem filterMap_resolve_pairs (db : DB) :
    ∀ items : List CartItem, (∀ it ∈ items, validItemB db it = true) →
      ((items.filterMap (resolveItem db)).map fun oi => (oi.product, oi.quantity)) =
        items.map fun it => (it.productId, it.quantity) := by
  intro items
  induction items with
  | nil => intro _; rfl
  | cons a rest ih =>
    intro hall
    obtain ⟨p, hfp, hres⟩ := resolveItem_of_valid (hall a (List.mem_cons_self _ _))
    simp only [List.filterMap_cons, hres, List.map_cons, mkOrderItem]
    rw [ih (fun it hit => hall it (List.mem_cons_of_mem _ hit)), findProduct_id hfp]

theorem qtyForOI_filterMap (db : DB) :
    ∀ items : List CartItem, (∀ it ∈ items, validItemB db it = true) →
      ∀ pid, qtyForOI (items.filterMap (resolveItem db)) pid = cartQty items pid := by
  intro items
  induction items with
  | nil => intro _ _; rfl
  | cons a rest ih =>
    intro hall pid
    obtain ⟨p, hfp, hres⟩ := resolveItem_of_valid (hall a (List.mem_cons_self _ _))
    simp only [List.filterMap_cons, hres]
    rw [qtyForOI_cons, cartQty_cons,
      ih (fun it hit => hall it (List.mem_cons_of_mem _ hit)) pid]
    have hprod : (mkOrderItem p a.quantity).product = a.productId := by
      rw [show (mkOrderItem p a.quantity).product = p.id from rfl, findProduct_id hfp]
    rw [hprod]
    rfl

/-- C1: a successful `createOrder` on a cart whose items resolve to `k`
distinct vendors creates exactly `k` orders with pairwise distinct vendors,
every line item of an order belongs to that order's vendor, and the multiset
of `(product, quantity)` pairs across all created orders is exactly the
cart's multiset of line items. -/
theorem createOrder_vendor_partition (caller : Principal) (req : CreateOrderReq)
    (db : DB) (cart : Cart) (orders : List Order) (db' : DB)
    (hcart : findCart db caller.id = some cart)
    (hok : createOrder caller req db = (.ok orders, db')) :
    orders.length = (resolvedVendors db cart.items).toFinset.card ∧
    (orders.map fun o => o.vendor).Nodup ∧
    (∀ o ∈ orders, ∀ oi ∈ o.items, ∃ p, findProduct db oi.product = some p ∧
      p.vendor = o.vendor) ∧
    ((orders.map fun o => o.items).flatten.map fun oi => (oi.product, oi.quantity)).Perm
      (cart.items.map fun it => (it.productId, it.quantity)) := by
  obtain ⟨cart₀, gs, hcart₀, hbg, horders, hdb'⟩ := createOrder_ok_inv hok
  rw [hcart₀] at hcart
  injection hcart with hceq
  subst hceq
  subst horders
  have hnodupkeys : (keysOfGroups gs).Nodup :=
    buildGroups_ok_keys_nodup _ [] gs hbg (by simp [keysOfGroups])
  have hfs : (keysOfGroups gs).toFinset = (resolvedVendors db cart₀.items).toFinset := by
    rw [buildGroups_ok_keys_toFinset _ [] gs hbg]
    simp [keysOfGroups]
  have hvend := cvo_vendors caller req
    (seedPaymentStatus req.paymentMethod req.paymentReference) gs db []
  have hitems := cvo_items caller req
    (seedPaymentStatus req.paymentMethod req.paymentReference) gs db []
  have hlen := cvo_length caller req
    (seedPaymentStatus req.paymentMethod req.paymentReference) gs db []
  refine ⟨?_, ?_, ?_, ?_⟩
  · rw [hlen, ← hfs, List.toFinset_card_of_nodup hnodupkeys]
    simp [keysOfGroups]
  · rw [hvend]
    simpa using hnodupkeys
  · intro o ho oi hoi
    rcases cvo_mem caller req _ gs db [] o ho with h0 | ⟨pr, hpr, hv, hi, _, _, _⟩
    · cases h0
    · have hwf := buildGroups_ok_wf _ [] gs hbg (by intro pr' hpr' x hx; cases hpr')
      rw [hi] at hoi
      obtain ⟨p, hp1, hp2, _, _⟩ := hwf pr hpr oi hoi
      exact ⟨p, hp1, by rw [hv]; exact hp2⟩
  · rw [hitems]
    have hvalid := buildGroups_ok_valid _ [] gs hbg
    have hperm : (itemsOfGroups gs).Perm (cart₀.items.filterMap (resolveItem db)) := by
      simpa using buildGroups_ok_items_perm _ [] gs hbg
    have hpairs := hperm.map fun oi => (oi.product, oi.quantity)
    rw [filterMap_resolve_pairs db cart₀.items hvalid] at hpairs
    simpa using hpairs

/-- C2: every order a successful `createOrder` produces has
`totalAmount = Σ items[].totalPrice` and
`items[i].totalPrice = items[i].unitPrice × items[i].quantity`, with
`unitPrice` equal to the catalog price at call time; and a later catalog
price update (`updateProduct`) never touches the Order Ledger, so stored
totals are frozen. -/
theorem createOrder_totals_frozen (caller : Principal) (req : CreateOrderReq)
    (db : DB) (orders : List Order) (db' : DB)
    (hok : createOrder caller req db = (.ok orders, db')) :
    (∀ o ∈ orders,
      o.totalAmount = (o.items.map fun oi => oi.totalPrice).sum ∧
      ∀ oi ∈ o.items, oi.totalPrice = oi.unitPrice * (oi.quantity : Int) ∧
        ∃ p, findProduct db oi.product = some p ∧ oi.unitPrice = p.price) ∧
    (∀ pid np, (updateProductPrice db' pid np).orders = db'.orders) := by
  obtain ⟨cart₀, gs, hcart₀, hbg, horders, hdb'⟩ := createOrder_ok_inv hok
  subst horders
  constructor
  · intro o ho
    rcases cvo_mem caller req _ gs db [] o ho with h0 | ⟨pr, hpr, _, hi, hta, _, _⟩
    · cases h0
    · have hwf := buildGroups_ok_wf _ [] gs hbg (by intro pr' hpr' x hx; cases hpr')
      constructor
      · rw [hta, hi]
        rfl
      · intro oi hoi
        rw [hi] at hoi
        obtain ⟨p, hp1, _, hup, htp⟩ := hwf pr hpr oi hoi
        exact ⟨htp, p, hp1, hup⟩
  · intro pid np
    rfl

/-- C3: with well-formed contact fields, a cart containing any line item that
fails validation (unresolvable or inactive product, or quantity beyond
stock) makes `createOrder` fail with a 404 or 400 and leave the database —
orders, stock and cart alike — exactly as it was. -/
theorem createOrder_rejects_invalid_item (caller : Principal) (req : CreateOrderReq)
    (db : DB) (cart : Cart)
    (hship : req.shippingAddress ≠ "") (hphone : req.phone ≠ "")
    (hcart : findCart db caller.id = some cart)
    (hbad : ∃ it ∈ cart.items, validItemB db it = false) :
    ∃ e, createOrder caller req db = (.error e, db) ∧
      (e.statusCode = 404 ∨ e.statusCode = 400) := by
  obtain ⟨e, he, hcode⟩ := buildGroups_error_of_invalid cart.items [] hbad
  refine ⟨e, ?_, hcode⟩
  have hne : ¬(cart.items.isEmpty = true) := by
    intro hemp
    rw [List.isEmpty_iff] at hemp
    obtain ⟨it, hit, _⟩ := hbad
    rw [hemp] at hit
    cases hit
  unfold createOrder
  rw [if_neg hship, if_neg hphone]
  simp only [hcart]
  rw [if_neg hne]
  simp only [he]

/-- C4: every order of a successful `createOrder` is seeded with
`paymentStatus = "paid"` exactly when the request's payment method is
`card` and a payment reference was supplied, and `"pending"` in every other
case (card without reference, bank transfer, cash on delivery, anything
else). -/
theorem createOrder_payment_seeding (caller : Principal) (req : CreateOrderReq)
    (db : DB) (orders : List Order) (db' : DB)
    (hok : createOrder caller req db = (.ok orders, db')) :
    ∀ o ∈ orders,
      o.paymentStatus =
        if req.paymentMethod = "card" ∧ req.paymentReference ≠ "" then "paid"
        else "pending" := by
  obtain ⟨cart₀, gs, hcart₀, hbg, horders, hdb'⟩ := createOrder_ok_inv hok
  subst horders
  intro o ho
  rcases cvo_mem caller req _ gs db [] o ho with h0 | ⟨pr, hpr, _, _, _, hps, _⟩
  · cases h0
  · rw [hps]
    unfold seedPaymentStatus
    by_cases hc : req.paymentMethod = "card" ∧ req.paymentReference ≠ ""
    · rw [if_pos hc, if_pos hc]
    · rw [if_neg hc, if_neg hc]
      by_cases hb : req.paymentMethod = "bank_transfer"
      · rw [if_pos hb]
      · rw [if_neg hb]
        by_cases hcd : req.paymentMethod = "cash_on_delivery"
        · rw [if_pos hcd]
        · rw [if_neg hcd]

/-- C9: after a successful `createOrder`, the caller's cart is stored with
zero items, and each product's stock went down by exactly the total quantity
the cart requested of it (zero for products not in the cart). -/
theorem createOrder_clears_cart_and_reduces_stock (caller : Principal)
    (req : CreateOrderReq) (db : DB) (cart : Cart) (orders : List Order) (db' : DB)
    (hcart : findCart db caller.id = some cart)
    (hok : createOrder caller req db = (.ok orders, db')) :
    ((findCart db' caller.id).map fun c => c.items) = some [] ∧
    ∀ pid, stockOf db' pid = (stockOf db pid).map fun s => s - cartQty cart.items pid := by
  obtain ⟨cart₀, gs, hcart₀, hbg, horders, hdb'⟩ := createOrder_ok_inv hok
  rw [hcart₀] at hcart
  injection hcart with hceq
  subst hceq
  subst hdb'
  constructor
  · have hfc : findCart (createVendorOrders caller req
        (seedPaymentStatus req.paymentMethod req.paymentReference) gs db []).2 caller.id =
        some cart₀ := by
      unfold findCart
      rw [cvo_db_carts]
      exact hcart₀
    rw [findCart_clearCart hfc]
    rfl
  · intro pid
    have h1 : stockOf (clearCart (createVendorOrders caller req
        (seedPaymentStatus req.paymentMethod req.paymentReference) gs db []).2 caller.id)
          pid =
        stockOf (createVendorOrders caller req
          (seedPaymentStatus req.paymentMethod req.paymentReference) gs db []).2 pid := rfl
    rw [h1, cvo_stock]
    have hvalid := buildGroups_ok_valid _ [] gs hbg
    have hperm : (itemsOfGroups gs).Perm (cart₀.items.filterMap (resolveItem db)) := by
      simpa using buildGroups_ok_items_perm _ [] gs hbg
    rw [qtyForOI_perm hperm pid, qtyForOI_filterMap db cart₀.items hvalid pid]

theorem createOrder_vendor_partition_witness :
    findCart dbW callerW.id = some cartW ∧
    createOrder callerW reqW dbW = (.ok ordersW, dbW') ∧
    (ordersW.length = (resolvedVendors dbW cartW.items).toFinset.card ∧
     (ordersW.map fun o => o.vendor).Nodup ∧
     (∀ o ∈ ordersW, ∀ oi ∈ o.items, ∃ p, findProduct dbW oi.product = some p ∧
       p.vendor = o.vendor) ∧
     ((ordersW.map fun o => o.items).flatten.map fun oi => (oi.product, oi.quantity)).Perm
       (cartW.items.map fun it => (it.productId, it.quantity))) :=
  ⟨rfl, rfl, createOrder_vendor_partition callerW reqW dbW cartW ordersW dbW' rfl rfl⟩

theorem createOrder_totals_frozen_witness :
    createOrder callerW reqW dbW = (.ok ordersW, dbW') ∧
    ((∀ o ∈ ordersW,
      o.totalAmount = (o.items.map fun oi => oi.totalPrice).sum ∧
      ∀ oi ∈ o.items, oi.totalPrice = oi.unitPrice * (oi.quantity : Int) ∧
        ∃ p, findProduct dbW oi.product = some p ∧ oi.unitPrice = p.price) ∧
    (∀ pid np, (updateProductPrice dbW' pid np).orders = dbW'.orders)) :=
  ⟨rfl, createOrder_totals_frozen callerW reqW dbW ordersW dbW' rfl⟩

theorem createOrder_rejects_invalid_item_witness :
    reqW.shippingAddress ≠ "" ∧ reqW.phone ≠ "" ∧
    findCart dbBad callerW.id = some cartBad ∧
    (∃ it ∈ cartBad.items, validItemB dbBad it = false) ∧
    (∃ e, createOrder callerW reqW dbBad = (.error e, dbBad) ∧
      (e.statusCode = 404 ∨ e.statusCode = 400)) :=
  ⟨by decide, by decide, rfl, by decide,
    createOrder_rejects_invalid_item callerW reqW dbBad cartBad (by decide) (by decide) rfl
      (by decide)⟩

theorem createOrder_payment_seeding_witness :
    createOrder callerW reqW dbW = (.ok ordersW, dbW') ∧
    (∀ o ∈ ordersW, o.paymentStatus =
      if reqW.paymentMethod = "card" ∧ reqW.paymentReference ≠ "" then "paid"
      else "pending") :=
  ⟨rfl, createOrder_payment_seeding callerW reqW dbW ordersW dbW' rfl⟩

theorem createOrder_clears_cart_witness :
    findCart dbW callerW.id = some cartW ∧
    createOrder callerW reqW dbW = (.ok ordersW, dbW') ∧
    (((findCart dbW' callerW.id).map fun c => c.items) = some [] ∧
     ∀ pid, stockOf dbW' pid = (stockOf dbW pid).map fun s => s - cartQty cartW.items pid) :=
  ⟨rfl, rfl,
    createOrder_clears_cart_and_reduces_stock callerW reqW dbW cartW ordersW dbW' rfl rfl⟩

end TradeSphere
